import Mathlib

/-!
Shallow embedding of the cellcytex_dashboard measurement pipeline
(`src/parser.py`, `src/metadata_parser.py`) and proofs about the claims
of its specification.

Tables are modelled as lists of rows of cells; pandas DataFrames carry
their column labels as a list of cells (promoted header rows can turn
data cells into labels, so labels are `Cell`s, not bare strings).
Numbers are exact rationals; `Cell.sqrtq q` denotes the real number
`Real.sqrt q`, produced only by the standard-deviation aggregation when
the sample variance `q` is not a rational perfect square.  Fallible
Python code (KeyError, IndexError, TypeError, AttributeError,
UnboundLocalError, file-system errors) is embedded in `Except String`.
-/

namespace CellCytex

/-- A pandas cell: a string, an exact rational number, the square root
of a rational (an aggregation result), or NaN/None (missing).  Note
that `Cell.nan = Cell.nan` holds, matching pandas merge/key semantics
where NaN keys match each other; `groupby` instead drops NaN keys
explicitly (see `keyOfRow`). -/
inductive Cell where
  | str (s : String)
  | num (q : ℚ)
  | sqrtq (q : ℚ)
  | nan
deriving DecidableEq, Repr

/-- Is the cell a string? -/
def Cell.isStr : Cell → Bool
  | .str _ => true
  | _ => false

/-- The string held by a string cell (defaulting to `""`). -/
def Cell.strVal : Cell → String
  | .str s => s
  | _ => ""

/-- A DataFrame: column labels plus rows.  Every row is assumed to have
`cols.length` cells; lookups out of range default to NaN. -/
structure DF where
  cols : List Cell
  rows : List (List Cell)
deriving DecidableEq, Repr

/-- Cell of a row at a column position (missing positions read as NaN,
as pandas-aligned frames never expose a ragged row). -/
def getEntry (row : List Cell) (i : Nat) : Cell := row.getD i Cell.nan

/-- Index of the first column with the given label, like pandas label
lookup (`df[name]`, `on=name`). -/
def colIdx (cols : List Cell) (name : Cell) : Option Nat :=
  cols.findIdx? (fun c => c = name)

/-- `needle in haystack` on Python strings. -/
def strContains (haystack needle : String) : Bool :=
  2 ≤ (haystack.splitOn needle).length

/-- Python `s.split(sep)[0]`: the text before the first separator (the
whole string when the separator does not occur). -/
def prefixPart (s sep : String) : String :=
  (s.splitOn sep).headD s

/-- Decimal numeral parser standing in for `pd.to_numeric` on one
token: optional sign, digits, optional fractional part.  (The source
delegates to pandas; scientific notation is not needed by any input in
this development.) -/
def parseRatDigits (intPart fracPart : List Char) : Option ℚ :=
  if intPart = [] ∧ fracPart = [] then none
  else if intPart.all Char.isDigit ∧ fracPart.all Char.isDigit then
    let iv : ℚ := (intPart.foldl (fun a c => a * 10 + (c.toNat - '0'.toNat)) 0 : Nat)
    let fv : ℚ := (fracPart.foldl (fun a c => a * 10 + (c.toNat - '0'.toNat)) 0 : Nat)
    some (iv + fv / ((10 : ℚ) ^ fracPart.length))
  else none

/-- Parse a decimal numeral string to a rational, `none` when the text
is not a plain decimal numeral. -/
def parseRatString (s : String) : Option ℚ :=
  let t := s.trim.toList
  let (sign, t) := match t with
    | '-' :: r => ((-1 : ℚ), r)
    | '+' :: r => ((1 : ℚ), r)
    | r => ((1 : ℚ), r)
  let intPart := t.takeWhile (fun c => c ≠ '.')
  let rest := t.dropWhile (fun c => c ≠ '.')
  match rest with
  | [] => (parseRatDigits intPart []).map (sign * ·)
  | '.' :: frac => (parseRatDigits intPart frac).map (sign * ·)
  | _ => none

/-- `pd.to_numeric(errors='coerce')` on one cell: numbers stay, numeral
strings parse, everything else becomes NaN. -/
def toNumericCell : Cell → Cell
  | .num q => .num q
  | .sqrtq q => .sqrtq q
  | .str s => match parseRatString s with
      | some q => .num q
      | none => .nan
  | .nan => .nan

/-- Render a nonnegative rational whose denominator divides 100 the way
Python prints the corresponding float (`15.0`, `0.5`, `1.25`).  Values
with other denominators do not arise from the pipeline's rounded
concentrations; they fall back to a fraction rendering. -/
def pyFloatStrNN (q : ℚ) : String :=
  let h := q * 100
  if h.den = 1 then
    let n := h.num.toNat
    let ip := n / 100
    let fr := n % 100
    if fr = 0 then toString ip ++ ".0"
    else if fr % 10 = 0 then toString ip ++ "." ++ toString (fr / 10)
    else if fr < 10 then toString ip ++ ".0" ++ toString fr
    else toString ip ++ "." ++ toString fr
  else toString q.num ++ "/" ++ toString q.den

/-- Python `str()` of a float value held in a cell. -/
def pyFloatStr (q : ℚ) : String :=
  if q < 0 then "-" ++ pyFloatStrNN (-q) else pyFloatStrNN q

/-- Python `str()` / f-string rendering of a cell
(`f"{row[col]}"`, `.astype(str)`). -/
def cellPyStr : Cell → String
  | .str s => s
  | .num q => pyFloatStr q
  | .sqrtq q => "sqrt(" ++ toString q.num ++ "/" ++ toString q.den ++ ")"
  | .nan => "nan"

/-- Python `str()` of a cell that may hold an int-typed label (Excel
numeric headers read as ints print without a decimal point). -/
def cellLabelStr : Cell → String
  | .str s => s
  | .num q => if q.den = 1 then toString q.num else pyFloatStr q
  | .sqrtq q => "sqrt(" ++ toString q.num ++ "/" ++ toString q.den ++ ")"
  | .nan => "nan"

/-- Drop the column at position `i` from a frame. -/
def dropColAt (df : DF) (i : Nat) : DF :=
  { cols := df.cols.eraseIdx i, rows := df.rows.map (fun r => r.eraseIdx i) }

/-- `df.drop(columns=[name])`: remove every column labelled `name`. -/
def dropColsNamed (df : DF) (name : Cell) : DF :=
  let keep := (List.range df.cols.length).filter (fun i => getEntry df.cols i ≠ name)
  { cols := keep.map (getEntry df.cols), rows := df.rows.map (fun r => keep.map (getEntry r)) }

/-- `df.rename(columns={old: new})`: relabel every matching column. -/
def renameCol (df : DF) (old new : Cell) : DF :=
  { df with cols := df.cols.map (fun c => if c = old then new else c) }

/-- Append a constant column (`df[name] = value`), or overwrite it when
the label already exists. -/
def setConstCol (df : DF) (name : Cell) (value : Cell) : DF :=
  match colIdx df.cols name with
  | some i => { df with rows := df.rows.map (fun r => r.set i value) }
  | none => { cols := df.cols ++ [name], rows := df.rows.map (fun r => r ++ [value]) }

/-- The cells of column `i`. -/
def colCells (df : DF) (i : Nat) : List Cell :=
  df.rows.map (fun r => getEntry r i)

/-! ## Staging directory model

A staging directory is the ordered listing `os.listdir` returns.  CSV
and Excel files carry their parsed tabular content (`pd.read_csv` /
`pd.read_excel` are treated as given); a JSON file carries the decoded
`AnalysisWellGroup.json` structure. -/

/-- Parsed content of one staged file. -/
inductive FileContent where
  | table (t : DF)
  | jsonWellGroups (groups : List (String × List (Int × Int)))
deriving DecidableEq, Repr

/-- One file of the staging directory. -/
structure DirFile where
  name : String
  content : FileContent
deriving DecidableEq, Repr

/-- A staging directory: the files in `os.listdir` order. -/
structure Dir where
  files : List DirFile
deriving DecidableEq, Repr

/-- `open(os.path.join(data_dir, relPath))` plus parsing: look the
relative path up in the staged directory.  A path containing a `/`
component (such as `somefile.json/AnalysisWellGroup.json`) never names
a staged file, so the open fails, as it does on a real file system
(NotADirectoryError). -/
def openInDir (d : Dir) (relPath : String) : Except String FileContent :=
  match d.files.find? (fun f => f.name = relPath) with
  | some f => .ok f.content
  | none => .error ("OSError: cannot open " ++ relPath)

/-- `os.path.join` restricted to paths relative to the staging dir. -/
def pathJoin (p f : String) : String :=
  if p = "" then f else p ++ "/" ++ f

/-- The tabular content of a staged file (reading a table from a
non-tabular file is an error). -/
def fileTable (c : FileContent) : Except String DF :=
  match c with
  | .table t => .ok t
  | .jsonWellGroups _ => .error "ParserError: not a csv/xlsx table"

/-- Names of the staged files, in listing order. -/
def dirNames (d : Dir) : List String := d.files.map (fun f => f.name)

/-- The staged files whose name ends with `ext`. -/
def filesWithExt (d : Dir) (ext : String) : List DirFile :=
  d.files.filter (fun f => f.name.endsWith ext)

/-! ## Well-Label Codec (`CytenaProcessor._well_to_label`) -/

/-- `string.ascii_uppercase`. -/
def asciiUppercase : String := "ABCDEFGHIJKLMNOPQRSTUVWXYZ"

/-- Python string indexing `s[i]`, including negative indices from the
end; out-of-range indexing raises, embedded as `none`. -/
def pyStrIndex (s : String) (i : Int) : Option Char :=
  let n : Int := s.toList.length
  let j := if i < 0 then i + n else i
  if h : 0 ≤ j ∧ j < n then
    some (s.toList.get ⟨j.toNat, by omega⟩)
  else none

/-- `CytenaProcessor._well_to_label` (src/parser.py:45-48): row index
into the uppercase alphabet, column rendered one-based. -/
def wellToLabel (row col : Int) : Option String :=
  (pyStrIndex asciiUppercase row).map (fun ch => ch.toString ++ toString (col + 1))

/-- Matcher for the spec's well-label pattern
`[A-H]` followed by `[1-9]` or `1[0-2]`, anchored at both ends. -/
def wellLabelMatches (s : String) : Bool :=
  match s.toList with
  | [a, b] => ('A' ≤ a && a ≤ 'H') && ('1' ≤ b && b ≤ '9')
  | [a, b, c] => ('A' ≤ a && a ≤ 'H') && (b = '1') && ('0' ≤ c && c ≤ '2')
  | _ => false

/-! ## Scan ID (`CytenaProcessor._extract_scan_id`, src/parser.py:64-75) -/

/-- Names of the staged CSV files. -/
def csvNames (d : Dir) : List String :=
  (dirNames d).filter (fun f => f.endsWith ".csv")

/-- The filename prefixes (text before the first `_`) of the staged
CSV files. -/
def csvPrefixes (d : Dir) : List String :=
  (csvNames d).map (fun f => prefixPart f "_")

/-- `CytenaProcessor._extract_scan_id`: the single common CSV filename
prefix, or `None` when there is not exactly one distinct prefix. -/
def extractScanId (d : Dir) : Option String :=
  match (csvPrefixes d).dedup with
  | [p] => some p
  | _ => none

/-- `results['Scan ID'] = scan_id`: a `None` scan id is stored as a
missing value. -/
def scanIdCell : Option String → Cell
  | some s => .str s
  | none => .nan

/-! ## Instrument File Reader (src/parser.py:77-141) -/

/-- The closed channel vocabulary with display names. -/
def possibleChannels : List (String × String) :=
  [("BF", "brightfield"), ("green", "green"), ("EC", "enhanced contrast")]

/-- The closed attribute vocabulary with units. -/
def possibleAttributes : List (String × String) :=
  [("total_intensity", "AU"), ("average_mean_intensity", "AU"),
   ("relative_spheroid_area", "%"), ("total_spheroid_area", "mm2"),
   ("relative_fluorescence_area", "%"), ("confluency", "%"),
   ("total_area", "mm2"), ("object_count", "1/mm2"),
   ("object_count_per_fov", "per FOV")]

/-- Python-dict insertion into an insertion-ordered association list
(`data_dict[label] = df`): an existing key keeps its position but takes
the new value. -/
def dictInsert (l : List (String × DF)) (k : String) (v : DF) : List (String × DF) :=
  if l.any (fun p => p.1 = k) then
    l.map (fun p => if p.1 = k then (k, v) else p)
  else l ++ [(k, v)]

/-- The file-discovery loop shared by both summary parsers: collect
`(label, raw table)` for every staged `*.csv` whose name contains
`marker`, where the label is the text after `marker ++ "_"` with the
`.csv` suffix removed.  Splitting the label once on `_` must give a
channel and an attribute token (their vocabulary check in the source
only prints a diagnostic); a marker hit without the underscored form
raises IndexError, an un-splittable label raises ValueError. -/
def collectSummaryFiles (d : Dir) (marker : String) : Except String (List (String × DF)) :=
  d.files.foldlM (fun acc f =>
    if f.name.endsWith ".csv" ∧ strContains f.name marker then do
      let label ←
        match (f.name.splitOn (marker ++ "_")).get? 1 with
        | some l => Except.ok (l.replace ".csv" "")
        | none => Except.error "IndexError: list index out of range"
      if ¬ strContains label "_" then
        Except.error "ValueError: not enough values to unpack"
      else do
        let t ← fileTable f.content
        pure (dictInsert acc label t)
    else pure acc) []

/-- Drop a leading column literally labelled `"Scan"`. -/
def dropScanCol (df : DF) : DF :=
  if df.cols.head? = some (Cell.str "Scan") then dropColAt df 0 else df

/-- Drop the columns labelled `"Stdev"` when present (per-well variant
only). -/
def dropStdevCol (df : DF) : DF :=
  if df.cols.any (fun c => c = Cell.str "Stdev") then
    dropColsNamed df (Cell.str "Stdev")
  else df

/-- Promote the first data row to become the labels of every column but
the first, then drop the first two data rows
(`df.columns = [df.columns[0]] + df.iloc[0,1:].tolist(); df = df.iloc[2:,:]`).
An empty frame raises IndexError. -/
def promoteHeader (df : DF) : Except String DF :=
  match df.cols with
  | [] => .error "IndexError: no columns"
  | c0 :: _ =>
    match df.rows with
    | [] => .error "IndexError: single positional indexer is out-of-bounds"
    | r0 :: _ => .ok { cols := c0 :: r0.drop 1, rows := df.rows.drop 2 }

/-- `all(['Position 1' in col for col in df.columns[1:]])`.  The list
comprehension evaluates `in` on every label, so a non-string label
raises TypeError regardless of other labels. -/
def positionCheck (df : DF) : Except String Bool :=
  if (df.cols.drop 1).all Cell.isStr then
    .ok ((df.cols.drop 1).all (fun c => strContains c.strVal "Position 1"))
  else .error "TypeError: argument of type float is not iterable"

/-- Strip the literal `" - Position 1"` from every label but the
first. -/
def stripPositionLabels (df : DF) : DF :=
  { df with cols := df.cols.take 1 ++
      (df.cols.drop 1).map (fun c => Cell.str (c.strVal.replace " - Position 1" "")) }

/-- The per-position processing loop (src/parser.py:91-106).  The
accumulator mirrors `data_dict_processed`, which the loop body never
extends: a frame that passes the `Position 1` check has its labels
stripped but is then discarded, so a run that never hits the `return
False` branch returns the accumulator unchanged — the empty dict. -/
def posLoop : List (String × DF) → List (String × DF) →
    Except String (Option (List (String × DF)))
  | acc, [] => .ok (some acc)
  | acc, (_, df) :: rest =>
    match promoteHeader (dropScanCol df) with
    | .error e => .error e
    | .ok df2 =>
      match positionCheck df2 with
      | .error e => .error e
      | .ok true =>
        let _ := stripPositionLabels df2
        posLoop acc rest
      | .ok false => .ok none

/-- `CytenaProcessor.parse_position_summary_files` (src/parser.py:77-106).
`.ok none` embeds the Python `return False`; `.ok (some d)` embeds
returning the dict `d`. -/
def parsePositionSummaryFiles (d : Dir) : Except String (Option (List (String × DF))) :=
  match collectSummaryFiles d "summary_positions" with
  | .error e => .error e
  | .ok raw => posLoop [] raw

/-- The per-well processing loop (src/parser.py:128-141), which does
store each processed frame. -/
def wellLoop : List (String × DF) → List (String × DF) →
    Except String (List (String × DF))
  | acc, [] => .ok acc
  | acc, (label, df) :: rest => do
    let df := dropScanCol df
    let df := dropStdevCol df
    let df ← promoteHeader df
    wellLoop (dictInsert acc label df) rest

/-- `CytenaProcessor.parse_well_summary_files` (src/parser.py:108-141). -/
def parseWellSummaryFiles (d : Dir) : Except String (List (String × DF)) := do
  let raw ← collectSummaryFiles d "summary_wells"
  wellLoop [] raw

/-- The orchestrator's layout selection (src/parser.py:164-168):
`if not self.parse_position_summary_files(...)` falls back to the
per-well parser on any falsy result (`False` or an empty dict);
otherwise the per-position parser is called a second time and its
result used. -/
def chooseDataDict (d : Dir) : Except String (List (String × DF)) := do
  let p ← parsePositionSummaryFiles d
  match p with
  | none => parseWellSummaryFiles d
  | some l =>
    if l.isEmpty then parseWellSummaryFiles d
    else do
      let p2 ← parsePositionSummaryFiles d
      match p2 with
      | some l2 => pure l2
      | none => .error "AttributeError: bool object has no attribute items"

/-- Post-normalization of one parsed frame (src/parser.py:170-178):
strip the `"Well "` prefix from every label but the first (a non-string
label raises AttributeError), coerce every cell to numeric, and trim
whitespace from string labels. -/
def postNormalizeDF (df : DF) : Except String DF :=
  let tail := df.cols.drop 1
  if tail.all Cell.isStr then
    let cols := df.cols.take 1 ++ tail.map (fun c => Cell.str (c.strVal.replace "Well " ""))
    let rows := df.rows.map (fun r => r.map toNumericCell)
    let cols := cols.map (fun c => if c.isStr then Cell.str c.strVal.trim else c)
    .ok { cols := cols, rows := rows }
  else .error "AttributeError: float object has no attribute replace"

/-- Post-normalize every parsed frame, keeping labels and order. -/
def postNormalize (dd : List (String × DF)) : Except String (List (String × DF)) :=
  dd.mapM (fun p => do
    let df ← postNormalizeDF p.2
    pure (p.1, df))

/-! ## Metadata Resolver (src/metadata_parser.py, src/parser.py:180-206) -/

/-- `MetadataParser.parse_json_metadata` (src/metadata_parser.py:11-29).
It opens `os.path.join(json_path, "AnalysisWellGroup.json")`, treating
its argument as a directory, and builds the rows through
`self._well_to_label` — a method the `MetadataParser` class does not
define, so the comprehension raises AttributeError as soon as any group
lists a well.  With only well-less groups the row list stays empty and
`pd.DataFrame([])` has no columns. -/
def mpParseJsonMetadata (d : Dir) (jsonPath : String) : Except String DF := do
  let content ← openInDir d (pathJoin jsonPath "AnalysisWellGroup.json")
  match content with
  | .jsonWellGroups groups =>
      if groups.all (fun g => g.2 = []) then
        .ok { cols := [], rows := [] }
      else
        .error "AttributeError: MetadataParser object has no attribute well_to_label"
  | .table _ => .error "JSONDecodeError: expecting value"

/-- `CytenaProcessor._parse_json_metadata` (src/parser.py:50-62): the
well-group dict built with the codec that does exist on
`CytenaProcessor`.  (The orchestrator never calls this method; it is
embedded to witness the intended decoding.)  Duplicate group names
would overwrite dict entries; none occur in this development. -/
def cpParseJsonMetadataDict (d : Dir) (jsonPath : String) :
    Except String (List (String × List String)) := do
  let content ← openInDir d (pathJoin jsonPath "AnalysisWellGroup.json")
  match content with
  | .jsonWellGroups groups =>
      groups.mapM (fun g => do
        let labels ← g.2.mapM (fun w =>
          match wellToLabel w.1 w.2 with
          | some s => Except.ok s
          | none => Except.error "IndexError: string index out of range")
        pure (g.1, labels))
  | .table _ => .error "JSONDecodeError: expecting value"

/-- The "template" spreadsheet layout (src/parser.py:188-190): when the
first column is labelled `Well`, a `Well Group` column is synthesized
as the space-joined string rendering of every other column's value. -/
def templateMetadata (m : DF) : DF :=
  let wg := fun (r : List Cell) =>
    Cell.str (String.intercalate " " ((r.drop 1).map cellPyStr))
  match colIdx m.cols (Cell.str "Well Group") with
  | some i => { m with rows := m.rows.map (fun r => r.set i (wg r)) }
  | none => { cols := m.cols ++ [Cell.str "Well Group"],
              rows := m.rows.map (fun r => r ++ [wg r]) }

/-- The eight plate-row letters as cells. -/
def lettersAH : List Cell :=
  ["A", "B", "C", "D", "E", "F", "G", "H"].map Cell.str

/-- Python set equality of the values of two lists. -/
def sameSet (a b : List Cell) : Bool :=
  a.all (fun x => b.any (fun y => y = x)) && b.all (fun x => a.any (fun y => y = x))

/-- Match and consume one occurrence of the regex
`" (PPB-" ++ digits ++ ")"` at the head of a character list. -/
def ppbMatch : List Char → Option (List Char)
  | ' ' :: '(' :: 'P' :: 'P' :: 'B' :: '-' :: rest =>
      let ds := rest.takeWhile Char.isDigit
      let rest2 := rest.dropWhile Char.isDigit
      if ds.isEmpty then none
      else match rest2 with
        | ')' :: r => some r
        | _ => none
  | _ => none

/-- Remove every occurrence of `" (PPB-<digits>)"`; fuel-driven scan
(each step consumes at least one character). -/
def stripPPBAux : Nat → List Char → List Char
  | 0, l => l
  | _ + 1, [] => []
  | fuel + 1, c :: cs =>
    match ppbMatch (c :: cs) with
    | some r => stripPPBAux fuel r
    | none => c :: stripPPBAux fuel cs

/-- `Series.str.replace(r' \(PPB-\d+\)', '', regex=True)` on one
string. -/
def stripPPB (s : String) : String :=
  ⟨stripPPBAux s.toList.length s.toList⟩

/-- `pd.Series.str.replace` on one cell of an object-typed column:
non-string elements become NaN. -/
def ppbCell : Cell → Cell
  | .str s => .str (stripPPB s)
  | _ => .nan

/-- Round half to even (numpy/pandas `.round`). -/
def roundHalfEven (q : ℚ) : ℤ :=
  let f := ⌊q⌋
  let r := q - f
  if r < 1 / 2 then f
  else if 1 / 2 < r then f + 1
  else if f % 2 = 0 then f else f + 1

/-- `.round(2)`. -/
def round2 (q : ℚ) : ℚ := (roundHalfEven (q * 100) : ℚ) / 100

/-- Numeric coercion plus 2-decimal rounding of one concentration
cell. -/
def concCoerceCell (c : Cell) : Cell :=
  match toNumericCell c with
  | .num q => .num (round2 q)
  | c2 => c2

/-- The concentration column label of the Disco Bio layout. -/
def abConcName : Cell := Cell.str "Ab conc.\n[nM]"

/-- First half of `MetadataParser.parse_disco_bio_excel`
(src/metadata_parser.py:40-79): validate/rename the plate-row column,
broadcast single-valued columns, strip `" (PPB-<digits>)"` on
string-typed columns past the second, and coerce + round the
concentration column (looked up by label; a missing label raises
KeyError at the numeric check).  Diagnostics that only print are not
modelled. -/
def discoPrepare (m : DF) : Except String DF := do
  if m.cols.length < 2 then
    .error "IndexError: single positional indexer is out-of-bounds"
  else
    -- rename column 2 to "well column" when its values are exactly {A..H}
    let m := if sameSet (colCells m 1) lettersAH then
        renameCol m (getEntry m.cols 1) (Cell.str "well column")
      else m
    -- broadcast any column holding exactly one non-missing value
    let bcast := fun i =>
      let nonNan := (colCells m i).filter (fun c => c ≠ Cell.nan)
      if nonNan.length = 1 then some (nonNan.headD Cell.nan) else none
    let m : DF := { m with rows := m.rows.map (fun r =>
      r.mapIdx (fun i x => match bcast i with
        | some v => v
        | none => x)) }
    -- strip " (PPB-<digits>)" on object-dtype columns past the second
    let isObj := fun i => (colCells m i).any Cell.isStr
    let m : DF := { m with rows := m.rows.map (fun r =>
      r.mapIdx (fun i x => if 2 ≤ i ∧ isObj i then ppbCell x else x)) }
    -- concentration column: numeric coercion and rounding
    match colIdx m.cols abConcName with
    | none => .error "KeyError: Ab conc"
    | some ci =>
      .ok { m with rows := m.rows.map (fun r =>
        r.set ci (concCoerceCell (getEntry r ci))) }

/-- Does a column label select a titration column, i.e. does
`str(col).isdigit() and 1 <= int(col) <= 8` hold?  A rational with
denominator 1 stands for an int-typed Excel header. -/
def titrationCol (c : Cell) : Bool :=
  match c with
  | .str s =>
    match s.toNat? with
    | some n => decide (1 ≤ n ∧ n ≤ 8)
    | none => false
  | .num q => decide (q.den = 1 ∧ 1 ≤ q.num ∧ q.num ≤ 8)
  | _ => false

/-- The row's concentration (`row['Ab conc.\n[nM]']`). -/
def concOfRow (cols row : List Cell) : Cell :=
  match colIdx cols abConcName with
  | some i => getEntry row i
  | none => Cell.nan

/-- The annotated cell `f"{row[col]} ({ab_conc} nM)"`. -/
def annotVal (x conc : Cell) : Cell :=
  Cell.str (cellPyStr x ++ " (" ++ cellPyStr conc ++ " nM)")

/-- Annotate the cells of one row: columns from position 2 on whose
label is a digit in 1..8 get the concentration suffix on non-missing
cells; every other cell is untouched (src/metadata_parser.py:82-87). -/
def annotCells (conc : Cell) : Nat → List Cell → List Cell → List Cell
  | _, _, [] => []
  | i, [], x :: xs => x :: annotCells conc (i + 1) [] xs
  | i, c :: cs, x :: xs =>
    (if 2 ≤ i ∧ titrationCol c = true ∧ x ≠ Cell.nan then annotVal x conc else x)
      :: annotCells conc (i + 1) cs xs

/-- The concentration-annotation pass over the whole frame. -/
def annotDF (m : DF) : DF :=
  { m with rows := m.rows.map (fun r => annotCells (concOfRow m.cols r) 0 m.cols r) }

/-- The melt of `parse_disco_bio_excel` (src/metadata_parser.py:92-103):
unpivot with `Row` as identifier (KeyError when no column is labelled
`Row`), build `Well = Row + str(Col)` (TypeError when a Row value is
not a string), and keep `[Well, Well Group]`. -/
def discoMelt (m : DF) : Except String DF :=
  match colIdx m.cols (Cell.str "Row") with
  | none => .error "KeyError: Row"
  | some ri =>
    let valueIdxs := (List.range m.cols.length).filter
      (fun j => getEntry m.cols j ≠ Cell.str "Row")
    if m.rows.all (fun r => (getEntry r ri).isStr) then
      .ok { cols := [Cell.str "Well", Cell.str "Well Group"],
            rows := valueIdxs.flatMap (fun j =>
              m.rows.map (fun r =>
                [Cell.str ((getEntry r ri).strVal ++ cellLabelStr (getEntry m.cols j)),
                 getEntry r j])) }
    else .error "TypeError: can only concatenate str to str"

/-- Drop the concentration column, rename `well column` to `Row`, and
melt (src/metadata_parser.py:88-103). -/
def discoFinish (m : DF) : Except String DF :=
  discoMelt (renameCol (dropColsNamed m abConcName) (Cell.str "well column") (Cell.str "Row"))

/-- `MetadataParser.parse_disco_bio_excel` (src/metadata_parser.py:31-103). -/
def parseDiscoBioExcel (m : DF) : Except String DF :=
  match discoPrepare m with
  | .error e => .error e
  | .ok p => discoFinish (annotDF p)

/-- The orchestrator's metadata resolution (src/parser.py:180-206).
`.ok none` embeds every branch that only prints an error and leaves the
local variable `metadata` unassigned: more than one spreadsheet, or no
spreadsheet together with zero or several JSON files. -/
def resolveMetadata (d : Dir) : Except String (Option DF) :=
  match filesWithExt d ".xlsx" with
  | [f] => do
      let t ← fileTable f.content
      match t.cols with
      | [] => .error "IndexError: index 0 is out of bounds"
      | c0 :: _ =>
        if c0 = Cell.str "Well" then
          .ok (some (templateMetadata t))
        else do
          let m ← parseDiscoBioExcel t
          .ok (some m)
  | [] =>
      match filesWithExt d ".json" with
      | [f] => do
          let m ← mpParseJsonMetadata d f.name
          .ok (some m)
      | _ => .ok none
  | _ => .ok none

/-! ## Reshape-and-Join Engine (src/parser.py:207-249) -/

/-- The channel token of a parse label (`label.split('_')[0]`). -/
def channelOfLabel (label : String) : String := prefixPart label "_"

/-- The attribute token of a parse label (`label.split('_',1)[1]`). -/
def attrOfLabel (label : String) : String :=
  String.intercalate "_" (label.splitOn "_").tail

/-- `pd.melt(df, id_vars=[df.columns[0]], var_name='Well',
value_name=attr)`: one output row per (value column, input row) pair,
stacked column-major the way pandas melts. -/
def meltMeasurement (label : String) (df : DF) : Except String DF :=
  match df.cols with
  | [] => .error "IndexError: index 0 is out of bounds"
  | c0 :: _ =>
    let valueIdxs := (List.range df.cols.length).filter
      (fun j => getEntry df.cols j ≠ c0)
    .ok { cols := [c0, Cell.str "Well", Cell.str (attrOfLabel label)],
          rows := valueIdxs.flatMap (fun j =>
            df.rows.map (fun r => [getEntry r 0, getEntry df.cols j, getEntry r j])) }

/-- `pd.merge(l, r, on=keys, how='left')`: every left row is emitted
once per matching right row — or once with missing right fields when
nothing matches — and the right key columns are not repeated.  A key
label absent from either side raises KeyError.  (NaN keys match each
other, as they do in pandas.) -/
def leftMergeOn (keys : List Cell) (l r : DF) : Except String DF :=
  match keys.mapM (colIdx l.cols), keys.mapM (colIdx r.cols) with
  | some li, some ri =>
    let rKeep := (List.range r.cols.length).filter
      (fun j => ¬ keys.any (fun k => k = getEntry r.cols j))
    .ok { cols := l.cols ++ rKeep.map (getEntry r.cols),
          rows := l.rows.flatMap (fun lr =>
            let ms := r.rows.filter (fun rr =>
              (li.zip ri).all (fun p => getEntry lr p.1 = getEntry rr p.2))
            match ms with
            | [] => [lr ++ rKeep.map (fun _ => Cell.nan)]
            | _ => ms.map (fun rr => lr ++ rKeep.map (getEntry rr))) }
  | _, _ => .error "KeyError: merge key not found"

/-- `df[name].iloc[0]`. -/
def firstRowCell (df : DF) (name : Cell) : Except String Cell :=
  match colIdx df.cols name with
  | none => .error "KeyError: channel"
  | some i =>
    match df.rows.head? with
    | none => .error "IndexError: single positional indexer is out-of-bounds"
    | some r => .ok (getEntry r i)

/-- Coalesce same-channel frames (src/parser.py:221-234): per channel
of the vocabulary, collect the frames whose first row carries that
channel and left-join them pairwise on every metadata column plus
`Time` and `channel`. -/
def channelMerge (metadataCols : List Cell) (merged : List DF) : Except String (List DF) :=
  let colsToMerge := metadataCols ++ [Cell.str "Time", Cell.str "channel"]
  (possibleChannels.map Prod.fst).foldlM (fun acc channel => do
    let tagged ← merged.mapM (fun df => do
      let c ← firstRowCell df (Cell.str "channel")
      pure (df, c))
    let dfs := (tagged.filter (fun p => p.2 = Cell.str channel)).map Prod.fst
    match dfs with
    | [] => pure acc
    | [x] => pure (acc ++ [x])
    | x :: rest => do
      let m ← rest.foldlM (fun a b => leftMergeOn colsToMerge a b) x
      pure (acc ++ [m])) []

/-- Keep the first occurrence of every element. -/
def firstDedup {α : Type} [DecidableEq α] (l : List α) : List α :=
  l.foldl (fun acc c => if acc.any (fun x => x = c) then acc else acc ++ [c]) []

/-- `pd.concat(dfs, axis=0, ignore_index=True)`: union the column
labels in order of first appearance and align every row, filling
missing columns with NaN; an empty list raises. -/
def concatFrames (dfs : List DF) : Except String DF :=
  match dfs with
  | [] => .error "ValueError: No objects to concatenate"
  | _ =>
    let allCols := firstDedup (dfs.flatMap (fun x => x.cols))
    .ok { cols := allCols,
          rows := dfs.flatMap (fun df => df.rows.map (fun r =>
            allCols.map (fun c =>
              match colIdx df.cols c with
              | some i => getEntry r i
              | none => Cell.nan))) }

/-! ## Aggregation (src/parser.py:240-247) -/

/-- The groupby key columns. -/
def aggKeyCols : List Cell :=
  [Cell.str "Well Group", Cell.str "Time", Cell.str "channel"]

/-- The group key of one row, or `none` when any key cell is missing
(`groupby` drops NaN keys). -/
def keyOfRow (keyIdxs : List Nat) (r : List Cell) : Option (List Cell) :=
  if (keyIdxs.map (getEntry r)).any (fun c => c = Cell.nan) then none
  else some (keyIdxs.map (getEntry r))

/-- A total comparison on cells used only to order group keys the way
`groupby(sort=True)` sorts like-typed keys; the order between cells of
different kinds (which pandas would refuse to compare) is fixed
arbitrarily. -/
def cellLe (a b : Cell) : Bool :=
  match a, b with
  | .num p, .num q => decide (p ≤ q)
  | .str s, .str t => decide (s ≤ t)
  | .sqrtq p, .sqrtq q => decide (p ≤ q)
  | .num _, _ => true
  | .str _, .num _ => false
  | .str _, _ => true
  | .sqrtq _, .num _ => false
  | .sqrtq _, .str _ => false
  | .sqrtq _, _ => true
  | .nan, _ => false

/-- Lexicographic order on key tuples. -/
def keyLe : List Cell → List Cell → Bool
  | [], _ => true
  | _ :: _, [] => false
  | a :: as, b :: bs => if a = b then keyLe as bs else cellLe a b

/-- The attribute values contributing to group `k` in column `j`
(non-numeric and missing cells are skipped, as pandas mean/std
skip NaN). -/
def groupVals (rows : List (List Cell)) (keyIdxs : List Nat)
    (k : List Cell) (j : Nat) : List ℚ :=
  (rows.filter (fun r => keyOfRow keyIdxs r = some k)).filterMap (fun r =>
    match getEntry r j with
    | .num q => some q
    | _ => none)

/-- Group mean (NaN for an empty group). -/
def meanCell (vs : List ℚ) : Cell :=
  match vs with
  | [] => .nan
  | _ => .num (vs.sum / vs.length)

/-- Sample variance with the pandas default `ddof=1`. -/
def sampleVar (vs : List ℚ) : ℚ :=
  let m := vs.sum / vs.length
  (vs.map (fun x => (x - m) ^ 2)).sum / ((vs.length : ℚ) - 1)

/-- Exact rational square root when it exists. -/
def ratSqrt? (q : ℚ) : Option ℚ :=
  if q < 0 then none
  else
    let n := q.num.toNat
    let d := q.den
    let sn := Nat.sqrt n
    let sd := Nat.sqrt d
    if sn * sn = n ∧ sd * sd = d then some ((sn : ℚ) / (sd : ℚ)) else none

/-- Group sample standard deviation: NaN when fewer than two values
contribute, else the square root of the sample variance (kept exact:
`Cell.sqrtq` when the root is irrational). -/
def stdCell (vs : List ℚ) : Cell :=
  if vs.length ≤ 1 then .nan
  else
    match ratSqrt? (sampleVar vs) with
    | some r => .num r
    | none => .sqrtq (sampleVar vs)

/-- Strip leading and trailing underscores (`'_'.join(col).strip('_')`). -/
def stripUnderscores (s : String) : String :=
  let l := s.toList.dropWhile (fun c => c = '_')
  ⟨(l.reverse.dropWhile (fun c => c = '_')).reverse⟩

/-- Flatten one multi-index column name and apply the
`_mean$` → `_avg` rename (src/parser.py:245-247). -/
def flattenAggName (a b : String) : String :=
  let s := stripUnderscores (a ++ "_" ++ b)
  if s.endsWith "_mean" then s.dropRight 5 ++ "_avg" else s

/-- The distinct group keys present in a row set, in `groupby` order. -/
def aggKeysOf (rows : List (List Cell)) (keyIdxs : List Nat) : List (List Cell) :=
  (firstDedup (rows.filterMap (keyOfRow keyIdxs))).mergeSort keyLe

/-- The groupby/mean/std aggregation with flattened column names
(src/parser.py:240-247): group by (Well Group, Time, channel) — rows
with a missing key cell are dropped — and emit, per group key and per
attribute column of the vocabulary, `<attr>_avg` and `<attr>_std`. -/
def aggregateResults (results : DF) : Except String DF :=
  match colIdx results.cols (Cell.str "Well Group"), colIdx results.cols (Cell.str "Time"),
      colIdx results.cols (Cell.str "channel") with
  | some gi, some ti, some ci =>
    let keyIdxs := [gi, ti, ci]
    let attrIdxs := (List.range results.cols.length).filter (fun j =>
      match getEntry results.cols j with
      | .str s => possibleAttributes.any (fun p => p.1 = s)
      | _ => false)
    let keys := aggKeysOf results.rows keyIdxs
    .ok { cols :=
            aggKeyCols.map (fun c => Cell.str (flattenAggName c.strVal "")) ++
            attrIdxs.flatMap (fun j =>
              let a := (getEntry results.cols j).strVal
              [Cell.str (flattenAggName a "mean"), Cell.str (flattenAggName a "std")]),
          rows := keys.map (fun k =>
            k ++ attrIdxs.flatMap (fun j =>
              let vs := groupVals results.rows keyIdxs k j
              [meanCell vs, stdCell vs])) }
  | _, _, _ => .error "KeyError: aggregate column not found"

/-! ## Pipeline Orchestrator (`CytenaProcessor.process`, src/parser.py:143-257) -/

/-- `CytenaProcessor._validate_directory` on a staged directory (the
directory itself exists by construction): at least one file with a
supported extension is required. -/
def validateDirectory (d : Dir) : Except String Unit :=
  if d.files.any (fun f =>
      f.name.endsWith ".csv" || f.name.endsWith ".xlsx" || f.name.endsWith ".json") then
    .ok ()
  else .error "ValueError: No supported files found"

/-- `CytenaProcessor.process`: returns
`(aggregated table, row-level table)`.  The unresolved-metadata
branches of `resolveMetadata` leave the Python local `metadata`
unassigned; its first use — the metadata merge, or `cols_to_merge` when
there is nothing to merge — raises UnboundLocalError, embedded here
after the melt step, in source order. -/
def process (d : Dir) : Except String (DF × DF) := do
  validateDirectory d
  let scanId := extractScanId d
  let dd ← chooseDataDict d
  let dd ← postNormalize dd
  let mOpt ← resolveMetadata d
  let long ← dd.mapM (fun p => do
    let m ← meltMeasurement p.1 p.2
    pure (p.1, m))
  let metadata ← match mOpt with
    | some m => pure m
    | none => Except.error "UnboundLocalError: local variable metadata referenced before assignment"
  let merged ← long.mapM (fun p => do
    let df := setConstCol p.2 (Cell.str "channel") (Cell.str (channelOfLabel p.1))
    leftMergeOn [Cell.str "Well"] df metadata)
  let finals ← channelMerge metadata.cols merged
  let results ← concatFrames finals
  let results := setConstCol results (Cell.str "Scan ID") (scanIdCell scanId)
  let resultsAgg ← aggregateResults results
  let resultsAgg := setConstCol resultsAgg (Cell.str "Scan ID") (scanIdCell scanId)
  pure (resultsAgg, results)

/-! ## Concrete staged inputs used by the theorems -/

/-- Raw per-well summary CSV
(`scan42_summary_wells_BF_confluency.csv`): two wells, one
timepoint. -/
def rawWellsBF : DF :=
  { cols := [Cell.str "Scan", Cell.str "Time", Cell.str "Unnamed: 2", Cell.str "Unnamed: 3"],
    rows := [
      [Cell.str "", Cell.str "", Cell.str "Well A1", Cell.str "Well A2"],
      [Cell.str "", Cell.str "[h]", Cell.str "%", Cell.str "%"],
      [Cell.str "0", Cell.str "1", Cell.str "10", Cell.str "20"]] }

/-- Raw per-position summary CSV whose promoted labels all carry
`Position 1`. -/
def rawPosBF : DF :=
  { cols := [Cell.str "Scan", Cell.str "Time", Cell.str "Unnamed: 2"],
    rows := [
      [Cell.str "", Cell.str "", Cell.str "Well A1 - Position 1"],
      [Cell.str "", Cell.str "[h]", Cell.str "%"],
      [Cell.str "0", Cell.str "1", Cell.str "33"]] }

/-- A template-layout metadata spreadsheet: first column `Well`. -/
def templateXlsx : DF :=
  { cols := [Cell.str "Well", Cell.str "Group"],
    rows := [[Cell.str "A1", Cell.str "G1"], [Cell.str "A2", Cell.str "G1"]] }

/-- A well-formed staging directory: one per-well CSV and one template
spreadsheet. -/
def exDirScan : Dir :=
  ⟨[⟨"scan42_summary_wells_BF_confluency.csv", .table rawWellsBF⟩,
    ⟨"plate.xlsx", .table templateXlsx⟩]⟩

/-- A staging directory holding a per-position file that passes the
`Position 1` layout check, along with a per-well file and metadata. -/
def exDirC1 : Dir :=
  ⟨[⟨"scan42_summary_positions_BF_confluency.csv", .table rawPosBF⟩,
    ⟨"scan42_summary_wells_BF_confluency.csv", .table rawWellsBF⟩,
    ⟨"plate.xlsx", .table templateXlsx⟩]⟩

/-- Two spreadsheets: ambiguous metadata. -/
def exDirTwoXlsx : Dir :=
  ⟨[⟨"scan42_summary_wells_BF_confluency.csv", .table rawWellsBF⟩,
    ⟨"plate.xlsx", .table templateXlsx⟩,
    ⟨"plate2.xlsx", .table templateXlsx⟩]⟩

/-- No spreadsheet and no JSON: unresolvable metadata. -/
def exDirNoMeta : Dir :=
  ⟨[⟨"scan42_summary_wells_BF_confluency.csv", .table rawWellsBF⟩]⟩

/-- No spreadsheet and two JSON files: unresolvable metadata. -/
def exDirTwoJson : Dir :=
  ⟨[⟨"scan42_summary_wells_BF_confluency.csv", .table rawWellsBF⟩,
    ⟨"a.json", .jsonWellGroups [("G1", [(0, 0)])]⟩,
    ⟨"b.json", .jsonWellGroups [("G2", [(0, 1)])]⟩]⟩

/-- No spreadsheet and exactly one `AnalysisWellGroup.json` with one
group listing one well. -/
def exDirJson : Dir :=
  ⟨[⟨"scan42_summary_wells_BF_confluency.csv", .table rawWellsBF⟩,
    ⟨"AnalysisWellGroup.json", .jsonWellGroups [("G1", [(0, 0)])]⟩]⟩

/-- Raw per-well summary CSV with a single well A1. -/
def rawWellsA1 : DF :=
  { cols := [Cell.str "Scan", Cell.str "Time", Cell.str "Unnamed: 2"],
    rows := [
      [Cell.str "", Cell.str "", Cell.str "Well A1"],
      [Cell.str "", Cell.str "[h]", Cell.str "%"],
      [Cell.str "0", Cell.str "1", Cell.str "10"]] }

/-- A template spreadsheet mapping the same well A1 to two groups. -/
def dupXlsx : DF :=
  { cols := [Cell.str "Well", Cell.str "Group"],
    rows := [[Cell.str "A1", Cell.str "G1"], [Cell.str "A1", Cell.str "G2"]] }

/-- Staging directory whose metadata maps well A1 to two groups. -/
def exDirDup : Dir :=
  ⟨[⟨"scan42_summary_wells_BF_confluency.csv", .table rawWellsA1⟩,
    ⟨"plate.xlsx", .table dupXlsx⟩]⟩

/-- Mixed-prefix CSVs. -/
def exDirMixed : Dir :=
  ⟨[⟨"scanA_summary_wells_BF_confluency.csv", .table rawWellsA1⟩,
    ⟨"scanB_summary_wells_green_confluency.csv", .table rawWellsA1⟩]⟩

/-- The spec's two-prefix example with agreeing prefixes. -/
def exDirScanPair : Dir :=
  ⟨[⟨"scan42_summary_wells_BF_confluency.csv", .table rawWellsA1⟩,
    ⟨"scan42_summary_wells_green_confluency.csv", .table rawWellsA1⟩]⟩

/-- A synthetic row-level table matching the spec's aggregation
example: well group G1 at Time 1, channel BF, `total_intensity`
10 and 20 from two wells, plus a single-well group G2 with value 30. -/
def aggSample : DF :=
  { cols := [Cell.str "Well", Cell.str "Well Group", Cell.str "Time",
             Cell.str "channel", Cell.str "total_intensity"],
    rows := [
      [Cell.str "A1", Cell.str "G1", Cell.num 1, Cell.str "BF", Cell.num 10],
      [Cell.str "A2", Cell.str "G1", Cell.num 1, Cell.str "BF", Cell.num 20],
      [Cell.str "A3", Cell.str "G2", Cell.num 1, Cell.str "BF", Cell.num 30]] }

/-- A Disco-Bio plate grid: concentrations 1 and 2 nM on plate rows A
and B, titration column `1` (with one PPB-suffixed cell) and
non-titration column `9`. -/
def discoGrid : DF :=
  { cols := [abConcName, Cell.str "r", Cell.str "1", Cell.str "9"],
    rows := [
      [Cell.num 1, Cell.str "A", Cell.str "X (PPB-12)", Cell.str "W"],
      [Cell.num 2, Cell.str "B", Cell.str "Z", Cell.str "V"],
      [Cell.nan, Cell.str "C", Cell.nan, Cell.nan],
      [Cell.nan, Cell.str "D", Cell.nan, Cell.nan],
      [Cell.nan, Cell.str "E", Cell.nan, Cell.nan],
      [Cell.nan, Cell.str "F", Cell.nan, Cell.nan],
      [Cell.nan, Cell.str "G", Cell.nan, Cell.nan],
      [Cell.nan, Cell.str "H", Cell.nan, Cell.nan]] }

/-- Is a per-position parse result a non-empty dict (the only truthy
outcome of `parse_position_summary_files`)? -/
def posDictNonempty : Except String (Option (List (String × DF))) → Bool
  | .ok (some (_ :: _)) => true
  | _ => false

/-- The row-level table `process` returns (an empty frame when the
pipeline raises). -/
def rowLevelOf (d : Dir) : DF :=
  match process d with
  | .ok p => p.2
  | .error _ => ⟨[], []⟩

/-- A row-level table with one well unmatched by the metadata (missing
Well Group). -/
def aggSampleNan : DF :=
  { cols := [Cell.str "Well", Cell.str "Well Group", Cell.str "Time",
             Cell.str "channel", Cell.str "total_intensity"],
    rows := [
      [Cell.str "A1", Cell.str "G1", Cell.num 1, Cell.str "BF", Cell.num 10],
      [Cell.str "B7", Cell.nan, Cell.num 1, Cell.str "BF", Cell.num 99]] }

/-- The Disco grid after `discoPrepare`: PPB text stripped,
concentrations coerced and rounded, plate-row column renamed. -/
def discoPrepGrid : DF :=
  { cols := [abConcName, Cell.str "well column", Cell.str "1", Cell.str "9"],
    rows := [
      [Cell.num 1, Cell.str "A", Cell.str "X", Cell.str "W"],
      [Cell.num 2, Cell.str "B", Cell.str "Z", Cell.str "V"],
      [Cell.nan, Cell.str "C", Cell.nan, Cell.nan],
      [Cell.nan, Cell.str "D", Cell.nan, Cell.nan],
      [Cell.nan, Cell.str "E", Cell.nan, Cell.nan],
      [Cell.nan, Cell.str "F", Cell.nan, Cell.nan],
      [Cell.nan, Cell.str "G", Cell.nan, Cell.nan],
      [Cell.nan, Cell.str "H", Cell.nan, Cell.nan]] }

/-- The annotated prepared grid, concentration column dropped and the
plate-row column renamed — the melt input. -/
def discoMeltIn : DF :=
  renameCol (dropColsNamed (annotDF discoPrepGrid) abConcName)
    (Cell.str "well column") (Cell.str "Row")

/-- A one-measurement long table (left side of a metadata merge). -/
def mergeLmini : DF :=
  { cols := [Cell.str "Time", Cell.str "Well"],
    rows := [[Cell.num 1, Cell.str "A1"]] }

/-- A metadata table mapping well A1 to two groups (right side). -/
def mergeRmini : DF :=
  { cols := [Cell.str "Well", Cell.str "Well Group"],
    rows := [[Cell.str "A1", Cell.str "G1"], [Cell.str "A1", Cell.str "G2"]] }

/-- The unpivoted Disco grid (output of `discoMelt discoMeltIn`). -/
def discoMeltOutGrid : DF :=
  { cols := [Cell.str "Well", Cell.str "Well Group"],
    rows := [
      [Cell.str "A1", Cell.str "X (1.0 nM)"],
      [Cell.str "B1", Cell.str "Z (2.0 nM)"],
      [Cell.str "C1", Cell.nan],
      [Cell.str "D1", Cell.nan],
      [Cell.str "E1", Cell.nan],
      [Cell.str "F1", Cell.nan],
      [Cell.str "G1", Cell.nan],
      [Cell.str "H1", Cell.nan],
      [Cell.str "A9", Cell.str "W"],
      [Cell.str "B9", Cell.str "V"],
      [Cell.str "C9", Cell.nan],
      [Cell.str "D9", Cell.nan],
      [Cell.str "E9", Cell.nan],
      [Cell.str "F9", Cell.nan],
      [Cell.str "G9", Cell.nan],
      [Cell.str "H9", Cell.nan]] }

/-! # Theorems -/

section Theorems

/-- All-equal non-empty lists dedup to a singleton. -/
theorem dedup_eq_singleton {l : List String} {p : String}
    (hne : l ≠ []) (hall : ∀ x ∈ l, x = p) : l.dedup = [p] := by
  induction l with
  | nil => exact absurd rfl hne
  | cons a t ih =>
    have ha : a = p := hall a (List.mem_cons_self a t)
    cases t with
    | nil => simp [List.dedup, ha]
    | cons b u =>
      have ht : (b :: u).dedup = [p] := ih (by simp)
        (fun x hx => hall x (List.mem_cons_of_mem a hx))
      have hmem : a ∈ b :: u := by
        have hb : b = p := hall b (by simp)
        subst ha hb
        simp
      rw [List.dedup_cons_of_mem hmem]
      exact ht

/-- C9: `process` is deterministic — equal staged directories produce
equal (aggregated, row-level) results; the embedding consumes nothing
but the directory listing, which is part of the input. -/
theorem process_deterministic : ∀ d₁ d₂ : Dir, d₁ = d₂ → process d₁ = process d₂ := by
  intro d₁ d₂ h
  rw [h]

/-- Witness for C9 at a concrete directory. -/
theorem process_deterministic_witness : process exDirScan = process exDirScan :=
  process_deterministic exDirScan exDirScan rfl

/-- C2: when metadata is unresolvable (two spreadsheets; or no
spreadsheet with zero or two JSON files), `process` does not return an
aggregated table with missing Well Group — it raises
UnboundLocalError, because the only-printed error branches leave the
local `metadata` unassigned before its first use. -/
theorem unresolved_metadata_raises :
    resolveMetadata exDirTwoXlsx = .ok none ∧
    resolveMetadata exDirNoMeta = .ok none ∧
    resolveMetadata exDirTwoJson = .ok none ∧
    process exDirTwoXlsx =
      .error "UnboundLocalError: local variable metadata referenced before assignment" ∧
    process exDirNoMeta =
      .error "UnboundLocalError: local variable metadata referenced before assignment" ∧
    process exDirTwoJson =
      .error "UnboundLocalError: local variable metadata referenced before assignment" := by
  refine ⟨by with_unfolding_all rfl, by with_unfolding_all rfl, by with_unfolding_all rfl,
    by with_unfolding_all rfl, by with_unfolding_all rfl, by with_unfolding_all rfl⟩

/-- C4: on a directory with no spreadsheet and exactly one
`AnalysisWellGroup.json`, the pipeline does not build the Well → Well
Group table: `process` hands `parse_json_metadata` the JSON *file*
path, which the parser joins with `"AnalysisWellGroup.json"` again, so
the open fails; and even when handed the directory path as its
docstring asks, `MetadataParser` lacks the `_well_to_label` codec it
calls, so any group listing a well raises AttributeError.  The codec
and decoding the claim describes do exist — on `CytenaProcessor`
(`_parse_json_metadata`), which the orchestrator never calls. -/
theorem json_metadata_resolver_crashes :
    process exDirJson =
      .error "OSError: cannot open AnalysisWellGroup.json/AnalysisWellGroup.json" ∧
    mpParseJsonMetadata exDirJson "AnalysisWellGroup.json" =
      .error "OSError: cannot open AnalysisWellGroup.json/AnalysisWellGroup.json" ∧
    mpParseJsonMetadata exDirJson "" =
      .error "AttributeError: MetadataParser object has no attribute well_to_label" ∧
    cpParseJsonMetadataDict exDirJson "" = .ok [("G1", ["A1"])] := by
  refine ⟨by with_unfolding_all rfl, by with_unfolding_all rfl, by with_unfolding_all rfl,
    by with_unfolding_all rfl⟩

/-- C6: the Scan ID is the single filename prefix (text before the
first underscore) shared by all staged CSVs; disagreeing prefixes leave
it `None`, stored as a missing value rather than raising. -/
theorem scan_id_from_shared_stem :
    ∀ (d : Dir) (p : String),
      ((csvNames d ≠ [] ∧ ∀ f ∈ csvNames d, prefixPart f "_" = p) →
        extractScanId d = some p) ∧
      ((∃ f ∈ csvNames d, ∃ g ∈ csvNames d, prefixPart f "_" ≠ prefixPart g "_") →
        extractScanId d = none ∧ scanIdCell (extractScanId d) = Cell.nan) := by
  intro d p
  constructor
  · rintro ⟨hne, hall⟩
    have h1 : csvPrefixes d ≠ [] := by
      intro h
      exact hne (List.map_eq_nil_iff.mp h)
    have h2 : ∀ x ∈ csvPrefixes d, x = p := by
      intro x hx
      obtain ⟨f, hf, rfl⟩ := List.mem_map.mp hx
      exact hall f hf
    unfold extractScanId
    rw [dedup_eq_singleton h1 h2]
  · rintro ⟨f, hf, g, hg, hne⟩
    have hfm : prefixPart f "_" ∈ csvPrefixes d := List.mem_map_of_mem _ hf
    have hgm : prefixPart g "_" ∈ csvPrefixes d := List.mem_map_of_mem _ hg
    have hnone : extractScanId d = none := by
      unfold extractScanId
      cases hd : (csvPrefixes d).dedup with
      | nil => rfl
      | cons a t =>
        cases t with
        | nil =>
          exfalso
          have h1 : prefixPart f "_" ∈ (csvPrefixes d).dedup := List.mem_dedup.mpr hfm
          have h2 : prefixPart g "_" ∈ (csvPrefixes d).dedup := List.mem_dedup.mpr hgm
          rw [hd] at h1 h2
          simp only [List.mem_singleton] at h1 h2
          exact hne (h1.trans h2.symm)
        | cons b u => rfl
    exact ⟨hnone, by rw [hnone]; rfl⟩

/-- Witness for C6: agreeing prefixes yield `scan42`; mixed prefixes
yield a missing Scan ID. -/
theorem scan_id_from_shared_stem_witness :
    extractScanId exDirScanPair = some "scan42" ∧
    (extractScanId exDirMixed = none ∧
      scanIdCell (extractScanId exDirMixed) = Cell.nan) := by
  constructor
  · exact (scan_id_from_shared_stem exDirScanPair "scan42").1
      ⟨by with_unfolding_all decide, by with_unfolding_all decide⟩
  · exact (scan_id_from_shared_stem exDirMixed "").2
      (by with_unfolding_all decide)

/-- C7: for plate coordinates `r < 8`, `c < 12`, the well-label encoder
succeeds, the label matches `[A-H]([1-9]|1[0-2])` anchored, and
distinct coordinate pairs give distinct labels. -/
theorem well_label_encode_valid :
    ∀ (r : Fin 8) (c : Fin 12),
      ((wellToLabel r.val c.val).isSome = true ∧
        wellLabelMatches ((wellToLabel r.val c.val).getD "") = true) ∧
      (∀ (r2 : Fin 8) (c2 : Fin 12),
        wellToLabel r.val c.val = wellToLabel r2.val c2.val → r = r2 ∧ c = c2) := by
  with_unfolding_all decide

/-- Witness for C7 at (0,0): the label exists, matches the pattern, and
its injectivity hypothesis is discharged at an equal pair. -/
theorem well_label_encode_valid_witness :
    ((wellToLabel (0 : Fin 8).val (0 : Fin 12).val).isSome = true ∧
      wellLabelMatches ((wellToLabel (0 : Fin 8).val (0 : Fin 12).val).getD "") = true) ∧
    ((0 : Fin 8) = 0 ∧ (0 : Fin 12) = 0) :=
  ⟨(well_label_encode_valid 0 0).1, (well_label_encode_valid 0 0).2 0 0 rfl⟩

/-- A successful `posLoop` run returns its accumulator unchanged: the
source loop never stores a processed frame. -/
theorem posLoop_acc : ∀ (rest : List (String × DF)) (acc l : List (String × DF)),
    posLoop acc rest = .ok (some l) → l = acc := by
  intro rest
  induction rest with
  | nil =>
    intro acc l h
    simp only [posLoop] at h
    exact (Option.some_inj.mp (Except.ok.inj h)).symm
  | cons hd tl ih =>
    intro acc l h
    obtain ⟨label, df⟩ := hd
    simp only [posLoop] at h
    split at h
    · exact Except.noConfusion h
    · split at h
      · exact Except.noConfusion h
      · exact ih acc l h
      · exact Option.noConfusion (Except.ok.inj h)

/-- C1 (bug evidence): the per-position parser can never produce a
non-empty dict — `data_dict_processed` is returned but never filled —
so the orchestrator's falsy test always falls back to the per-well
parser, even on a directory (here `exDirC1`) whose per-position file
passes the `Position 1` layout check for every file. -/
theorem position_tables_never_used :
    (∀ d : Dir, posDictNonempty (parsePositionSummaryFiles d) = false) ∧
    parsePositionSummaryFiles exDirC1 = .ok (some []) ∧
    chooseDataDict exDirC1 = parseWellSummaryFiles exDirC1 ∧
    (parseWellSummaryFiles exDirC1).map (fun l => l.map Prod.fst) =
      .ok ["BF_confluency"] := by
  refine ⟨?_, by with_unfolding_all rfl, by with_unfolding_all rfl,
    by with_unfolding_all rfl⟩
  intro d
  unfold parsePositionSummaryFiles
  cases hc : collectSummaryFiles d "summary_positions" with
  | error e => rfl
  | ok raw =>
    show posDictNonempty (posLoop [] raw) = false
    cases hp : posLoop [] raw with
    | error e => rfl
    | ok o =>
      cases o with
      | none => rfl
      | some l =>
        have hl : l = [] := posLoop_acc raw [] l hp
        subst hl
        rfl

/-- `firstDedup` never duplicates an element. -/
theorem firstDedup_nodup {α : Type} [DecidableEq α] (l : List α) :
    (firstDedup l).Nodup := by
  suffices h : ∀ (l acc : List α), acc.Nodup →
      (l.foldl (fun acc c => if acc.any (fun x => x = c) then acc else acc ++ [c]) acc).Nodup by
    exact h l [] List.nodup_nil
  intro l
  induction l with
  | nil => intro acc h; exact h
  | cons a t ih =>
    intro acc hacc
    simp only [List.foldl_cons]
    apply ih
    by_cases hmem : acc.any (fun x => x = a) = true
    · simpa [hmem] using hacc
    · have hnot : a ∉ acc := fun hmem2 =>
        hmem (List.any_eq_true.mpr ⟨a, hmem2, by simp⟩)
      simp only [hmem, if_false]
      exact List.Nodup.append hacc (List.nodup_singleton a)
        (by simpa [List.disjoint_singleton] using hnot)

/-- `firstDedup` keeps only elements of its input. -/
theorem firstDedup_subset {α : Type} [DecidableEq α] (l : List α) (x : α)
    (hx : x ∈ firstDedup l) : x ∈ l := by
  suffices h : ∀ (l acc : List α),
      x ∈ l.foldl (fun acc c => if acc.any (fun x => x = c) then acc else acc ++ [c]) acc →
      x ∈ acc ∨ x ∈ l by
    rcases h l [] hx with h1 | h2
    · exact absurd h1 (List.not_mem_nil x)
    · exact h2
  intro l
  induction l with
  | nil => intro acc h; exact Or.inl h
  | cons a t ih =>
    intro acc h
    simp only [List.foldl_cons] at h
    rcases ih _ h with h1 | h2
    · by_cases hmem : acc.any (fun x => x = a) = true
      · rw [if_pos hmem] at h1
        exact Or.inl h1
      · rw [if_neg hmem] at h1
        rcases List.mem_append.mp h1 with h1 | h1
        · exact Or.inl h1
        · exact Or.inr (by simp [List.mem_singleton.mp h1])
    · exact Or.inr (List.mem_cons_of_mem a h2)

/-- C3: the aggregation groups by (Well Group, Time, channel) and emits
one row per key with `<attr>_avg` the mean and `<attr>_std` the sample
standard deviation: on the spec's synthetic table, values 10 and 20
give avg 15 and std = √50 (between 7.070 and 7.072, i.e. ≈ 7.071), and
the single-well group G2 gets a defined mean 30 with a missing std;
group keys are never repeated. -/
theorem aggregation_mean_and_sample_std :
    aggregateResults aggSample =
      .ok { cols := [Cell.str "Well Group", Cell.str "Time", Cell.str "channel",
                     Cell.str "total_intensity_avg", Cell.str "total_intensity_std"],
            rows := [
              [Cell.str "G1", Cell.num 1, Cell.str "BF", Cell.num 15, Cell.sqrtq 50],
              [Cell.str "G2", Cell.num 1, Cell.str "BF", Cell.num 30, Cell.nan]] } ∧
    |Real.sqrt 50 - 7071 / 1000| < 1 / 1000 ∧
    (∀ (rows : List (List Cell)) (keyIdxs : List Nat), (aggKeysOf rows keyIdxs).Nodup) := by
  refine ⟨by with_unfolding_all rfl, ?_, ?_⟩
  · have h1 : Real.sqrt 50 ^ 2 = 50 := Real.sq_sqrt (by norm_num)
    have h2 : 0 ≤ Real.sqrt 50 := Real.sqrt_nonneg _
    rw [abs_lt]
    constructor <;> nlinarith
  · intro rows keyIdxs
    exact (List.mergeSort_perm (firstDedup (rows.filterMap (keyOfRow keyIdxs)))
      keyLe).symm.nodup (firstDedup_nodup _)

/-- C10: every aggregated row carries a non-missing Well Group (NaN
group keys are dropped by `groupby` and never form a bucket), a row
with a missing Well Group contributes no group key at all, and on a
concrete table with one unmatched well the aggregation contains only
the matched group while the row-level table keeps both rows. -/
theorem aggregated_rows_have_group :
    (∀ (results out : DF), aggregateResults results = .ok out →
      ∀ row ∈ out.rows, getEntry row 0 ≠ Cell.nan) ∧
    (∀ (i : Nat) (rest : List Nat) (r : List Cell),
      getEntry r i = Cell.nan → keyOfRow (i :: rest) r = none) ∧
    aggregateResults aggSampleNan =
      .ok { cols := [Cell.str "Well Group", Cell.str "Time", Cell.str "channel",
                     Cell.str "total_intensity_avg", Cell.str "total_intensity_std"],
            rows := [[Cell.str "G1", Cell.num 1, Cell.str "BF", Cell.num 10, Cell.nan]] } ∧
    aggSampleNan.rows.length = 2 := by
  refine ⟨?_, ?_, by with_unfolding_all rfl, by with_unfolding_all rfl⟩
  · intro results out h row hrow
    unfold aggregateResults at h
    split at h
    next gi ti ci hgi hti hci =>
      injection h with hout
      rw [← hout] at hrow
      dsimp only at hrow
      rw [List.mem_map] at hrow
      obtain ⟨k, hk, rfl⟩ := hrow
      have hk2 : k ∈ firstDedup (results.rows.filterMap (keyOfRow [gi, ti, ci])) :=
        List.mem_mergeSort.mp hk
      have hk3 : k ∈ results.rows.filterMap (keyOfRow [gi, ti, ci]) :=
        firstDedup_subset _ _ hk2
      obtain ⟨r, _, hr⟩ := List.mem_filterMap.mp hk3
      unfold keyOfRow at hr
      split at hr
      · exact Option.noConfusion hr
      next hany =>
        have hk4 : k = [gi, ti, ci].map (getEntry r) := (Option.some_inj.mp hr).symm
        subst hk4
        intro hbad
        apply hany
        have hg : getEntry r gi = Cell.nan := hbad
        simp [hg]
    next => exact Except.noConfusion h
  · intro i rest r h
    unfold keyOfRow
    simp [h]

/-- Position-indexed description of the annotation pass: the cell at
position `i` gets the concentration suffix exactly when its column sits
at position ≥ 2, its label is a digit 1..8, and the cell is
non-missing (labels past the end read as NaN, which is never a
titration label). -/
theorem annotCells_getEntry :
    ∀ (conc : Cell) (xs cs : List Cell) (i0 i : Nat), i < xs.length →
      getEntry (annotCells conc i0 cs xs) i =
        if 2 ≤ i0 + i ∧ titrationCol (getEntry cs i) = true ∧ getEntry xs i ≠ Cell.nan
        then annotVal (getEntry xs i) conc
        else getEntry xs i := by
  intro conc xs
  induction xs with
  | nil =>
    intro cs i0 i h
    exact absurd h (by simp)
  | cons x xs ih =>
    intro cs i0 i h
    cases cs with
    | nil =>
      have hnan : ∀ j : Nat, titrationCol (getEntry ([] : List Cell) j) = false := by
        intro j
        rfl
      cases i with
      | zero =>
        rw [if_neg (by simp [hnan])]
        rfl
      | succ i =>
        have h2 : i < xs.length := by simpa using h
        have hih := ih [] (i0 + 1) i h2
        rw [if_neg (by simp [hnan])] at hih ⊢
        exact hih
    | cons c cs2 =>
      cases i with
      | zero =>
        show (if 2 ≤ i0 ∧ titrationCol c = true ∧ x ≠ Cell.nan
              then annotVal x conc else x) =
             if 2 ≤ i0 + 0 ∧ titrationCol (getEntry (c :: cs2) 0) = true ∧
                 getEntry (x :: xs) 0 ≠ Cell.nan
             then annotVal (getEntry (x :: xs) 0) conc else getEntry (x :: xs) 0
        simp only [Nat.add_zero]
        rfl
      | succ i =>
        have h2 : i < xs.length := by simpa using h
        have hih := ih cs2 (i0 + 1) i h2
        have harith : i0 + 1 + i = i0 + (i + 1) := by omega
        rw [harith] at hih
        exact hih

/-- C5: in the Disco Bio layout, after coercion/rounding of the
concentration column and PPB stripping (`discoPrepare`), the
annotation pass suffixes exactly the non-missing cells of columns
labelled "1".."8" (positions ≥ 2) with `"<value> (<conc> nM)"`, leaves
"9".."12" unannotated, and the grid is unpivoted to one row per
(Row, plate-column) cell with `Well = Row ++ column label` and the cell
value as Well Group. -/
theorem disco_titration_annotation_and_unpivot :
    (∀ (m p : DF), discoPrepare m = .ok p →
      parseDiscoBioExcel m =
        discoMelt (renameCol (dropColsNamed (annotDF p) abConcName)
          (Cell.str "well column") (Cell.str "Row"))) ∧
    (∀ m : DF, (annotDF m).rows =
      m.rows.map (fun r => annotCells (concOfRow m.cols r) 0 m.cols r)) ∧
    (∀ s ∈ ["1", "2", "3", "4", "5", "6", "7", "8"],
      titrationCol (Cell.str s) = true) ∧
    (∀ s ∈ ["9", "10", "11", "12"], titrationCol (Cell.str s) = false) ∧
    (∀ (conc : Cell) (xs cs : List Cell) (i : Nat), i < xs.length →
      getEntry (annotCells conc 0 cs xs) i =
        if 2 ≤ i ∧ titrationCol (getEntry cs i) = true ∧ getEntry xs i ≠ Cell.nan
        then Cell.str (cellPyStr (getEntry xs i) ++ " (" ++ cellPyStr conc ++ " nM)")
        else getEntry xs i) ∧
    (∀ (m : DF) (ri : Nat), colIdx m.cols (Cell.str "Row") = some ri →
      (∀ r ∈ m.rows, (getEntry r ri).isStr = true) →
      ∃ out, discoMelt m = .ok out ∧
        out.cols = [Cell.str "Well", Cell.str "Well Group"] ∧
        (∀ p ∈ out.rows, ∃ j r, j < m.cols.length ∧
          getEntry m.cols j ≠ Cell.str "Row" ∧ r ∈ m.rows ∧
          p = [Cell.str ((getEntry r ri).strVal ++ cellLabelStr (getEntry m.cols j)),
               getEntry r j]) ∧
        (∀ j r, j < m.cols.length → getEntry m.cols j ≠ Cell.str "Row" → r ∈ m.rows →
          [Cell.str ((getEntry r ri).strVal ++ cellLabelStr (getEntry m.cols j)),
           getEntry r j] ∈ out.rows)) := by
  refine ⟨?_, fun _ => rfl, by with_unfolding_all decide, by with_unfolding_all decide,
    ?_, ?_⟩
  · intro m p h
    unfold parseDiscoBioExcel
    rw [h]
    rfl
  · intro conc xs cs i h
    have := annotCells_getEntry conc xs cs 0 i h
    rw [this]
    simp only [Nat.zero_add]
    rfl
  · intro m ri hri hstr
    have hall : m.rows.all (fun r => (getEntry r ri).isStr) = true :=
      List.all_eq_true.mpr (fun r hr => hstr r hr)
    have heq : discoMelt m = .ok
        { cols := [Cell.str "Well", Cell.str "Well Group"],
          rows := ((List.range m.cols.length).filter
              (fun j => getEntry m.cols j ≠ Cell.str "Row")).flatMap (fun j =>
            m.rows.map (fun r =>
              [Cell.str ((getEntry r ri).strVal ++ cellLabelStr (getEntry m.cols j)),
               getEntry r j])) } := by
      simp only [discoMelt, hri]
      rw [if_pos hall]
    refine ⟨_, heq, rfl, ?_, ?_⟩
    · intro p hp
      dsimp only at hp
      rw [List.mem_flatMap] at hp
      obtain ⟨j, hj, hp2⟩ := hp
      rw [List.mem_filter] at hj
      obtain ⟨hjr, hjne⟩ := hj
      rw [List.mem_range] at hjr
      rw [List.mem_map] at hp2
      obtain ⟨r, hr, rfl⟩ := hp2
      exact ⟨j, r, hjr, by simpa using hjne, hr, rfl⟩
    · intro j r hlt hne hr
      dsimp only
      rw [List.mem_flatMap]
      refine ⟨j, ?_, ?_⟩
      · rw [List.mem_filter]
        exact ⟨List.mem_range.mpr hlt, by simpa using hne⟩
      · rw [List.mem_map]
        exact ⟨r, hr, rfl⟩

/-- Witness for C5 on the concrete Disco grid: the pipeline
decomposition, the titration vocabulary at "1" and "9", the annotated
cell of column "1" on plate row A, and the melted row Well = "A1" with
the annotated group. -/
theorem disco_titration_annotation_and_unpivot_witness :
    parseDiscoBioExcel discoGrid =
      discoMelt (renameCol (dropColsNamed (annotDF discoPrepGrid) abConcName)
        (Cell.str "well column") (Cell.str "Row")) ∧
    titrationCol (Cell.str "1") = true ∧
    titrationCol (Cell.str "9") = false ∧
    getEntry (annotCells (Cell.num 1) 0 discoPrepGrid.cols
      [Cell.num 1, Cell.str "A", Cell.str "X", Cell.str "W"]) 2 =
      Cell.str "X (1.0 nM)" ∧
    discoMelt discoMeltIn = .ok discoMeltOutGrid ∧
    [Cell.str "A1", Cell.str "X (1.0 nM)"] ∈ discoMeltOutGrid.rows := by
  obtain ⟨h1, _, h3, h4, h5, h6⟩ := disco_titration_annotation_and_unpivot
  refine ⟨h1 discoGrid discoPrepGrid (by with_unfolding_all rfl),
    h3 "1" (by decide), h4 "9" (by decide), ?_, by with_unfolding_all rfl, ?_⟩
  · have ha := h5 (Cell.num 1) [Cell.num 1, Cell.str "A", Cell.str "X", Cell.str "W"]
      discoPrepGrid.cols 2 (by decide)
    exact ha.trans (by with_unfolding_all rfl)
  · obtain ⟨out, ho, _, _, hbwd⟩ := h6 discoMeltIn 0 (by with_unfolding_all rfl)
      (by with_unfolding_all decide)
    have hmem := hbwd 1 [Cell.str "A", Cell.str "X (1.0 nM)", Cell.str "W"]
      (by with_unfolding_all decide) (by with_unfolding_all decide)
      (by with_unfolding_all decide)
    have hcell : [Cell.str ((getEntry [Cell.str "A", Cell.str "X (1.0 nM)", Cell.str "W"] 0).strVal ++
        cellLabelStr (getEntry discoMeltIn.cols 1)),
        getEntry [Cell.str "A", Cell.str "X (1.0 nM)", Cell.str "W"] 1] =
        [Cell.str "A1", Cell.str "X (1.0 nM)"] := by
      with_unfolding_all rfl
    rw [hcell] at hmem
    have hout : out = discoMeltOutGrid :=
      Except.ok.inj (ho.symm.trans (by with_unfolding_all rfl))
    rw [hout] at hmem
    exact hmem

/-- C8 counterexample: on `exDirDup`, whose metadata maps well A1 to
both G1 and G2, the row-level table returned by `process` holds TWO
rows for the single (A1, Time 1, BF) measurement — one per group, in
metadata order — not a single row with the last mapping. -/
theorem duplicate_mapping_not_single_row :
    ((rowLevelOf exDirDup).rows.filter (fun r =>
      decide (getEntry r 0 = Cell.num 1 ∧ getEntry r 1 = Cell.str "A1" ∧
        getEntry r 3 = Cell.str "BF"))).length = 2 ∧
    (rowLevelOf exDirDup).rows.map (fun r => getEntry r 5) =
      [Cell.str "G1", Cell.str "G2"] ∧
    (rowLevelOf exDirDup).cols =
      [Cell.str "Time", Cell.str "Well", Cell.str "confluency", Cell.str "channel",
       Cell.str "Group", Cell.str "Well Group", Cell.str "Scan ID"] := by
  refine ⟨by with_unfolding_all rfl, by with_unfolding_all rfl,
    by with_unfolding_all rfl⟩

/-- C8 amended: the metadata left-join emits one row per
(measurement row, matching metadata row) pair — an unmatched
measurement row survives once — so a well mapped to n > 1 groups has
each of its (Well, Time, channel) measurements duplicated n times
rather than resolved last-write-wins. -/
theorem left_merge_one_row_per_mapping :
    ∀ (keys : List Cell) (l r : DF) (li ri : List Nat) (out : DF),
      keys.mapM (colIdx l.cols) = some li →
      keys.mapM (colIdx r.cols) = some ri →
      leftMergeOn keys l r = .ok out →
      out.rows.length =
        (l.rows.map (fun lr =>
          max (r.rows.filter (fun rr =>
            (li.zip ri).all (fun p => getEntry lr p.1 = getEntry rr p.2))).length 1)).sum := by
  intro keys l r li ri out h1 h2 h3
  unfold leftMergeOn at h3
  rw [h1, h2] at h3
  injection h3 with h3
  rw [← h3]
  dsimp only
  induction l.rows with
  | nil => rfl
  | cons lr rest ih =>
    simp only [List.flatMap_cons, List.length_append, List.map_cons, List.sum_cons, ih]
    congr 1
    cases hms : r.rows.filter (fun rr =>
        (li.zip ri).all (fun p => getEntry lr p.1 = getEntry rr p.2)) with
    | nil => simp
    | cons a t =>
      simp only [List.length_map, List.length_cons]
      omega

/-- Witness for C8's amended theorem: merging one measurement row with
a two-group metadata table yields two output rows. -/
theorem left_merge_one_row_per_mapping_witness :
    (DF.mk [Cell.str "Time", Cell.str "Well", Cell.str "Well Group"]
      [[Cell.num 1, Cell.str "A1", Cell.str "G1"],
       [Cell.num 1, Cell.str "A1", Cell.str "G2"]]).rows.length =
    (mergeLmini.rows.map (fun lr =>
      max (mergeRmini.rows.filter (fun rr =>
        (([1] : List Nat).zip [0]).all
          (fun p => getEntry lr p.1 = getEntry rr p.2))).length 1)).sum :=
  left_merge_one_row_per_mapping [Cell.str "Well"] mergeLmini mergeRmini [1] [0] _
    (by with_unfolding_all rfl) (by with_unfolding_all rfl) (by with_unfolding_all rfl)

/-- Witness for C10: the aggregated row of `aggSampleNan` carries group
G1 (not missing), and a row whose first key cell is missing contributes
no group key. -/
theorem aggregated_rows_have_group_witness :
    getEntry [Cell.str "G1", Cell.num 1, Cell.str "BF", Cell.num 10, Cell.nan] 0 ≠
      Cell.nan ∧
    keyOfRow [0] [Cell.nan] = none := by
  constructor
  · exact aggregated_rows_have_group.1 aggSampleNan
      { cols := [Cell.str "Well Group", Cell.str "Time", Cell.str "channel",
                 Cell.str "total_intensity_avg", Cell.str "total_intensity_std"],
        rows := [[Cell.str "G1", Cell.num 1, Cell.str "BF", Cell.num 10, Cell.nan]] }
      (by with_unfolding_all rfl) _ (by with_unfolding_all decide)
  · exact aggregated_rows_have_group.2.1 0 [] [Cell.nan] (by with_unfolding_all rfl)

end Theorems

end CellCytex
